import Mathlib

/-!
Verification of the aura-ai conversational shopping assistant core.

The definitions below are shallow embeddings of the Python source:

* `src/app/dao/agent_state_dao.py`  — conversation-state persistence
  (`sync_agent_state_from_checkpoint`): message merge with dedup, and
  field-by-field row update.
* `src/app/agents/context.py`       — extracted-query merge and routing.
* `src/app/utils/similarity.py`     — cosine similarity.
* `src/app/agents/ranking.py`       — weighted ranking of candidates.
* `src/app/tools/embedding.py`      — visual embedding fallback contract.
* `src/app/tools/filtering.py`      — client-side price filtering.

Machine floats are modelled as exact reals (ℝ) or rationals (ℚ); external
collaborators (the LLM, the CLIP model, Python's builtin `float` parser)
are parameters of the corresponding definitions.
-/

namespace AuraAI

/-! ## Messages as serialized for JSON storage

`_serialize_for_json` (src/app/dao/agent_state_dao.py, lines 17-45) turns a
LangChain message into a dict with string fields `type` and `content`, plus
`additional_kwargs` when present (modelled as an opaque optional payload
string).  Anything that is not such a dict is compared by its string
representation during the merge, so it is modelled by that string. -/

inductive Msg where
  | dict (ty content : String) (kwargs : Option String)
  | other (str : String)
  deriving DecidableEq

/-- Python's `str.strip()`: drop whitespace from both ends (modelled on the
character list so that concrete evaluation reduces in the kernel). -/
def pyStrip (s : String) : String :=
  String.mk (((s.toList.dropWhile Char.isWhitespace).reverse.dropWhile
    Char.isWhitespace).reverse)

/-- Python's `str.lower()`. -/
def pyLower (s : String) : String :=
  String.mk (s.toList.map Char.toLower)

def charsContain (pat : List Char) : List Char → Bool
  | [] => pat.isEmpty
  | c :: rest => pat.isPrefixOf (c :: rest) || charsContain pat rest

def strContainsSub (s pat : String) : Bool :=
  charsContain pat.toList s.toList

/-- `normalize_type` (agent_state_dao.py lines 141-150): lowercase the type
tag, collapse anything containing "human"/"user" to `human` and anything
containing "ai"/"assistant" to `ai`.  Substring containment is Python's
`in` on strings. -/
def normalize_type (msgType : String) : String :=
  let tl := pyLower msgType
  if strContainsSub tl "human" || strContainsSub tl "user" then "human"
  else if strContainsSub tl "ai" || strContainsSub tl "assistant" then "ai"
  else tl

/-- Signature of a dict-shaped message (agent_state_dao.py lines 154-160):
`f"{normalized type}:{stripped content}"`.  Non-dict messages have no
signature. -/
def msgSignature : Msg → Option String
  | .dict ty content _ => some (normalize_type ty ++ ":" ++ pyStrip content)
  | .other _ => none

/-- The signature set built from the stored dict messages
(agent_state_dao.py lines 154-160); modelled as a list used only through
membership. -/
def dictSignatures (msgs : List Msg) : List String :=
  msgs.filterMap msgSignature

/-- The stripped string representations of the non-dict stored messages
(agent_state_dao.py line 180). -/
def otherStrs (msgs : List Msg) : List String :=
  msgs.filterMap fun m =>
    match m with
    | .dict _ _ _ => none
    | .other s => some (pyStrip s)

/-- The append loop of the message merge (agent_state_dao.py lines
162-184): walk the incoming messages in order; append a dict message only
when its signature is not yet present (and record the signature); append a
non-dict message only when its stripped string representation is not among
the non-dict messages accumulated so far. -/
def mergeMessagesAux : List Msg → List String → List Msg → List Msg
  | acc, _, [] => acc
  | acc, sigs, .dict ty content kw :: rest =>
    let sig := normalize_type ty ++ ":" ++ pyStrip content
    if sig ∈ sigs then
      mergeMessagesAux acc sigs rest
    else
      mergeMessagesAux (acc ++ [Msg.dict ty content kw]) (sig :: sigs) rest
  | acc, sigs, .other s :: rest =>
    if pyStrip s ∈ otherStrs acc then
      mergeMessagesAux acc sigs rest
    else
      mergeMessagesAux (acc ++ [Msg.other s]) sigs rest

/-- The message merge of `sync_agent_state_from_checkpoint`
(agent_state_dao.py lines 106-190) on an existing row, after both sides
have been normalized to flat lists. -/
def mergeMessages (stored incoming : List Msg) : List Msg :=
  mergeMessagesAux stored (dictSignatures stored) incoming

/-- Defensive normalization of the raw stored `messages` column
(agent_state_dao.py lines 110-121 and 129-136): a JSONB dict wrapping a
`messages` list is unwrapped, a plain list is kept, anything else becomes
the empty list. -/
inductive RawMessages where
  | list (ms : List Msg)
  | dictWithMessages (ms : List Msg)
  | dictOther
  | other
  deriving DecidableEq

def normalizeRawMessages : RawMessages → List Msg
  | .list ms => ms
  | .dictWithMessages ms => ms
  | .dictOther => []
  | .other => []

/-! ### Merge lemmas -/

theorem mergeMessagesAux_eq_append (l : List Msg) :
    ∀ (acc : List Msg) (sigs : List String),
      ∃ t, mergeMessagesAux acc sigs l = acc ++ t := by
  induction l with
  | nil => intro acc sigs; exact ⟨[], by simp [mergeMessagesAux]⟩
  | cons m rest ih =>
    intro acc sigs
    cases m with
    | dict ty content kw =>
      by_cases h : (normalize_type ty ++ ":" ++ pyStrip content) ∈ sigs
      · obtain ⟨t, ht⟩ := ih acc sigs
        exact ⟨t, by simp [mergeMessagesAux, h, ht]⟩
      · obtain ⟨t, ht⟩ := ih (acc ++ [Msg.dict ty content kw])
          ((normalize_type ty ++ ":" ++ pyStrip content) :: sigs)
        exact ⟨Msg.dict ty content kw :: t, by simp [mergeMessagesAux, h, ht]⟩
    | other s =>
      by_cases h : pyStrip s ∈ otherStrs acc
      · obtain ⟨t, ht⟩ := ih acc sigs
        exact ⟨t, by simp [mergeMessagesAux, h, ht]⟩
      · obtain ⟨t, ht⟩ := ih (acc ++ [Msg.other s]) sigs
        exact ⟨Msg.other s :: t, by simp [mergeMessagesAux, h, ht]⟩

theorem mergeMessages_eq_append (stored incoming : List Msg) :
    ∃ t, mergeMessages stored incoming = stored ++ t :=
  mergeMessagesAux_eq_append incoming stored (dictSignatures stored)

/-- A message already represented in `acc`: a dict message whose signature
appears among the dict signatures of `acc`, or a non-dict message whose
stripped representation appears among the non-dict strings of `acc`. -/
def coveredBy (acc : List Msg) : Msg → Prop
  | .dict ty content _ => (normalize_type ty ++ ":" ++ pyStrip content) ∈ dictSignatures acc
  | .other s => pyStrip s ∈ otherStrs acc

theorem dictSignatures_append (a b : List Msg) :
    dictSignatures (a ++ b) = dictSignatures a ++ dictSignatures b := by
  simp [dictSignatures]

theorem otherStrs_append (a b : List Msg) :
    otherStrs (a ++ b) = otherStrs a ++ otherStrs b := by
  simp [otherStrs]

theorem coveredBy_append (acc t : List Msg) (m : Msg) (h : coveredBy acc m) :
    coveredBy (acc ++ t) m := by
  cases m with
  | dict ty content kw =>
    simp only [coveredBy, dictSignatures_append, List.mem_append] at *
    exact Or.inl h
  | other s =>
    simp only [coveredBy, otherStrs_append, List.mem_append] at *
    exact Or.inl h

/-- After the merge, every incoming message is represented in the result. -/
theorem mergeMessagesAux_covers (l : List Msg) :
    ∀ (acc : List Msg) (sigs : List String),
      (∀ s ∈ sigs, s ∈ dictSignatures acc) →
      ∀ m ∈ l, coveredBy (mergeMessagesAux acc sigs l) m := by
  induction l with
  | nil => intro acc sigs _ m hm; cases hm
  | cons m0 rest ih =>
    intro acc sigs hinv m hm
    cases m0 with
    | dict ty content kw =>
      by_cases h : (normalize_type ty ++ ":" ++ pyStrip content) ∈ sigs
      · rw [show mergeMessagesAux acc sigs (Msg.dict ty content kw :: rest)
            = mergeMessagesAux acc sigs rest by simp [mergeMessagesAux, h]]
        rcases List.mem_cons.1 hm with hEq | hMem
        · subst hEq
          obtain ⟨t, ht⟩ := mergeMessagesAux_eq_append rest acc sigs
          rw [ht]
          exact coveredBy_append acc t _ (hinv _ h)
        · exact ih acc sigs hinv m hMem
      · rw [show mergeMessagesAux acc sigs (Msg.dict ty content kw :: rest)
            = mergeMessagesAux (acc ++ [Msg.dict ty content kw])
                ((normalize_type ty ++ ":" ++ pyStrip content) :: sigs) rest by
              simp [mergeMessagesAux, h]]
        have hinv' : ∀ s ∈ (normalize_type ty ++ ":" ++ pyStrip content) :: sigs,
            s ∈ dictSignatures (acc ++ [Msg.dict ty content kw]) := by
          intro s hs
          rw [dictSignatures_append]
          rcases List.mem_cons.1 hs with hEq | hMem
          · subst hEq
            exact List.mem_append_right _ (by simp [dictSignatures, msgSignature])
          · exact List.mem_append_left _ (hinv _ hMem)
        rcases List.mem_cons.1 hm with hEq | hMem
        · subst hEq
          obtain ⟨t, ht⟩ := mergeMessagesAux_eq_append rest
            (acc ++ [Msg.dict ty content kw])
            ((normalize_type ty ++ ":" ++ pyStrip content) :: sigs)
          rw [ht]
          refine coveredBy_append _ t _ ?_
          exact hinv' _ (List.mem_cons_self _ _)
        · exact ih _ _ hinv' m hMem
    | other s =>
      by_cases h : pyStrip s ∈ otherStrs acc
      · rw [show mergeMessagesAux acc sigs (Msg.other s :: rest)
            = mergeMessagesAux acc sigs rest by simp [mergeMessagesAux, h]]
        rcases List.mem_cons.1 hm with hEq | hMem
        · subst hEq
          obtain ⟨t, ht⟩ := mergeMessagesAux_eq_append rest acc sigs
          rw [ht]
          exact coveredBy_append acc t _ h
        · exact ih acc sigs hinv m hMem
      · rw [show mergeMessagesAux acc sigs (Msg.other s :: rest)
            = mergeMessagesAux (acc ++ [Msg.other s]) sigs rest by
              simp [mergeMessagesAux, h]]
        have hinv' : ∀ x ∈ sigs, x ∈ dictSignatures (acc ++ [Msg.other s]) := by
          intro x hx
          rw [dictSignatures_append]
          exact List.mem_append_left _ (hinv _ hx)
        rcases List.mem_cons.1 hm with hEq | hMem
        · subst hEq
          obtain ⟨t, ht⟩ := mergeMessagesAux_eq_append rest (acc ++ [Msg.other s]) sigs
          rw [ht]
          refine coveredBy_append _ t _ ?_
          simp [coveredBy, otherStrs_append, otherStrs]
        · exact ih _ _ hinv' m hMem

/-- If every incoming message is already represented (dict signatures in
`sigs`, non-dict strings in `acc`), the merge loop appends nothing. -/
theorem mergeMessagesAux_noop (l : List Msg) :
    ∀ (acc : List Msg) (sigs : List String),
      (∀ m ∈ l, (∀ ty content kw, m = Msg.dict ty content kw →
          (normalize_type ty ++ ":" ++ pyStrip content) ∈ sigs) ∧
        (∀ s, m = Msg.other s → pyStrip s ∈ otherStrs acc)) →
      mergeMessagesAux acc sigs l = acc := by
  induction l with
  | nil => intro acc sigs _; rfl
  | cons m0 rest ih =>
    intro acc sigs hcov
    cases m0 with
    | dict ty content kw =>
      have h : (normalize_type ty ++ ":" ++ pyStrip content) ∈ sigs :=
        (hcov _ (List.mem_cons_self _ _)).1 ty content kw rfl
      rw [show mergeMessagesAux acc sigs (Msg.dict ty content kw :: rest)
          = mergeMessagesAux acc sigs rest by simp [mergeMessagesAux, h]]
      exact ih acc sigs fun m hm => hcov m (List.mem_cons_of_mem _ hm)
    | other s =>
      have h : pyStrip s ∈ otherStrs acc :=
        (hcov _ (List.mem_cons_self _ _)).2 s rfl
      rw [show mergeMessagesAux acc sigs (Msg.other s :: rest)
          = mergeMessagesAux acc sigs rest by simp [mergeMessagesAux, h]]
      exact ih acc sigs fun m hm => hcov m (List.mem_cons_of_mem _ hm)

/-- Merging the same incoming list a second time changes nothing. -/
theorem mergeMessages_idem (stored incoming : List Msg) :
    mergeMessages (mergeMessages stored incoming) incoming
      = mergeMessages stored incoming := by
  have hcovers : ∀ m ∈ incoming, coveredBy (mergeMessages stored incoming) m :=
    mergeMessagesAux_covers incoming stored (dictSignatures stored)
      (fun s hs => hs)
  apply mergeMessagesAux_noop
  intro m hm
  constructor
  · intro ty content kw hEq
    have := hcovers m hm
    rw [hEq] at this
    exact this
  · intro s hEq
    have := hcovers m hm
    rw [hEq] at this
    exact this

/-! ## The agent-state row and its partial update

`sync_agent_state_from_checkpoint` (agent_state_dao.py lines 48-247), the
branch for an existing row (lines 98-223).  JSON payloads other than
messages are opaque to the merge, so they are modelled by a type parameter
`α`; `_serialize_for_json` is the identity on the model.  The incoming
`AgentState` is a TypedDict whose absent fields read as `None`
(`state.get(...)`), modelled as `Option`. -/

structure IncomingState (α : Type) where
  messages : Option (List Msg)
  user_profile : Option α
  search_results : Option α
  selected_item : Option α
  chat_query_json : Option α
  styled_products : Option α
  ranked_products : Option α
  merged_images : Option α
  current_agent : Option String
  user_intent : Option String
  next_step : Option String
  deriving DecidableEq

structure AgentStateRow (α : Type) where
  thread_id : String
  user_id : String
  request_id : Option String
  messages : List Msg
  user_profile : Option α
  search_results : Option α
  selected_item : Option α
  chat_query_json : Option α
  styled_products : Option α
  ranked_products : Option α
  merged_images : Option α
  current_agent : Option String
  user_intent : Option String
  next_step : Option String
  deriving DecidableEq

/-- The update of an existing row (agent_state_dao.py lines 98-223):
`user_id`, `request_id`, `current_agent`, `user_intent` and `next_step`
are assigned unconditionally (lines 100-104); `messages` is merged when
present (lines 108-190); every other column is overwritten only when the
incoming value is non-null (lines 192-218). -/
def updateExistingState {α : Type} (row : AgentStateRow α) (uid : String)
    (rid : Option String) (st : IncomingState α) : AgentStateRow α :=
  { row with
    user_id := uid
    request_id := rid
    current_agent := st.current_agent
    user_intent := st.user_intent
    next_step := st.next_step
    messages :=
      match st.messages with
      | none => row.messages
      | some ms => mergeMessages row.messages ms
    user_profile :=
      match st.user_profile with
      | none => row.user_profile
      | some v => some v
    search_results :=
      match st.search_results with
      | none => row.search_results
      | some v => some v
    selected_item :=
      match st.selected_item with
      | none => row.selected_item
      | some v => some v
    chat_query_json :=
      match st.chat_query_json with
      | none => row.chat_query_json
      | some v => some v
    styled_products :=
      match st.styled_products with
      | none => row.styled_products
      | some v => some v
    ranked_products :=
      match st.ranked_products with
      | none => row.ranked_products
      | some v => some v
    merged_images :=
      match st.merged_images with
      | none => row.merged_images
      | some v => some v }

/-! ## Context agent: the extracted-query merge attempt

`context_agent` (src/app/agents/context.py) re-extracts the structured
query and merges it with the previously stored `ChatQuery` row by Python
truthiness (lines 95-116), evaluating the constructor arguments in source
order.  The extraction result `ChatQueryExtraction`
(src/app/tools/extraction.py lines 10-207) declares `destination`,
`occasion`, `budget_range`, `month_of_visit`, `query`, `color` and many
filter fields (`min_price`, `max_price`, `min_rating`, `sort`, `brand`,
`material`, `size`, `category`, `store`, `gender`, `age_group`,
`condition`, pagination and locale fields) — but no `product_type`; the
stored `ChatQuery` row (src/app/schema.py lines 135-209) likewise has
`category` but no `product_type`.  Attribute access on a pydantic model
raises `AttributeError` for an undeclared name, and lines 94-116 sit
outside both try blocks of the function, so the access
`extracted_data.product_type` at line 107 raises out of `context_agent`
on every call, before the merged record is saved and before the routing
of lines 144-170 can run. -/

structure ChatQueryExtraction where
  query : String
  destination : Option String
  occasion : Option String
  budget_range : Option String
  month_of_visit : Option String
  color : Option String

/-- The stored `ChatQuery` row, restricted to the optional string fields
the merge's reachable fallbacks read (all of them declared in
src/app/schema.py). -/
structure PriorChatQuery where
  destination : Option String
  occasion : Option String
  budget_range : Option String
  month_of_visit : Option String
  color : Option String

/-- The record the `ChatQuery(...)` call of context.py lines 95-116 would
build if every referenced attribute existed. -/
structure NewChatQuery where
  destination : Option String
  occasion : Option String
  budget_range : Option String
  product_type : Option String
  month_of_visit : Option String
  color : Option String

/-- Python truthiness of an optional string: `None` and `""` are falsy. -/
def pyTruthyStr : Option String → Bool
  | none => false
  | some s => s != ""

/-- Python attribute lookup on the extraction result, for the names the
context agent reads on it (context.py lines 98-113): `destination`,
`occasion`, `budget_range`, `month_of_visit` and `color` are declared
Optional[str] fields of `ChatQueryExtraction`; any other of these names —
in particular `product_type` — is undeclared and raises AttributeError. -/
def extractionGetAttr (e : ChatQueryExtraction) : String → Except String (Option String)
  | "destination" => .ok e.destination
  | "occasion" => .ok e.occasion
  | "budget_range" => .ok e.budget_range
  | "month_of_visit" => .ok e.month_of_visit
  | "color" => .ok e.color
  | name => .error ("AttributeError: " ++ name)

/-- The fallback `result.<name> if result else None` of lines 99-115 on
the stored row (evaluated lazily, only when the extracted value is
falsy). -/
def priorGetAttr (prior : Option PriorChatQuery) (name : String) :
    Except String (Option String) :=
  match prior with
  | none => .ok none
  | some r =>
    if name = "destination" then .ok r.destination
    else if name = "occasion" then .ok r.occasion
    else if name = "budget_range" then .ok r.budget_range
    else if name = "month_of_visit" then .ok r.month_of_visit
    else if name = "color" then .ok r.color
    else .error ("AttributeError: " ++ name)

/-- One constructor argument `ext.<f> if ext.<f> else fallback`
(a Python conditional expression: the fallback is only reached when the
condition was evaluated without raising and is falsy). -/
def pyCondField (ext_val fallback : Except String (Option String)) :
    Except String (Option String) :=
  match ext_val with
  | .error e => .error e
  | .ok v => if pyTruthyStr v then .ok v else fallback

/-- The construction of `new_chat_query` (context.py lines 95-116), with
the six keyword arguments evaluated in source order: destination,
occasion, budget_range, product_type, month_of_visit, color. -/
def buildNewChatQuery (ext : ChatQueryExtraction) (prior : Option PriorChatQuery) :
    Except String NewChatQuery :=
  match pyCondField (extractionGetAttr ext "destination")
      (priorGetAttr prior "destination") with
  | .error e => .error e
  | .ok dest =>
    match pyCondField (extractionGetAttr ext "occasion")
        (priorGetAttr prior "occasion") with
    | .error e => .error e
    | .ok occ =>
      match pyCondField (extractionGetAttr ext "budget_range")
          (priorGetAttr prior "budget_range") with
      | .error e => .error e
      | .ok budget =>
        match pyCondField (extractionGetAttr ext "product_type")
            (priorGetAttr prior "product_type") with
        | .error e => .error e
        | .ok ptype =>
          match pyCondField (extractionGetAttr ext "month_of_visit")
              (priorGetAttr prior "month_of_visit") with
          | .error e => .error e
          | .ok month =>
            match pyCondField (extractionGetAttr ext "color")
                (priorGetAttr prior "color") with
            | .error e => .error e
            | .ok col =>
              .ok { destination := dest
                    occasion := occ
                    budget_range := budget
                    product_type := ptype
                    month_of_visit := month
                    color := col }

/-- The context stage through its deterministic routing return
(context.py lines 95-170): only after the merged record is built and
saved does the agent compute `missing_fields` from destination, product
type and occasion (lines 144-150) and return the transition (lines
152-170); everything downstream of the `new_chat_query` construction. -/
def context_agent_decision (ext : ChatQueryExtraction)
    (prior : Option PriorChatQuery) : Except String String :=
  match buildNewChatQuery ext prior with
  | .error e => .error e
  | .ok q =>
    if ((if pyTruthyStr q.destination then [] else ["destination"]) ++
        (if pyTruthyStr q.product_type then [] else ["product type"]) ++
        (if pyTruthyStr q.occasion then [] else ["occasion"])) = ([] : List String)
    then .ok "research_agent"
    else .ok "clarification_agent"

theorem priorGetAttr_dest_isOk (prior : Option PriorChatQuery) :
    ∃ w, priorGetAttr prior "destination" = Except.ok w := by
  cases prior with
  | none => exact ⟨none, rfl⟩
  | some r => exact ⟨r.destination, rfl⟩

theorem priorGetAttr_occ_isOk (prior : Option PriorChatQuery) :
    ∃ w, priorGetAttr prior "occasion" = Except.ok w := by
  cases prior with
  | none => exact ⟨none, rfl⟩
  | some r => exact ⟨r.occasion, rfl⟩

theorem priorGetAttr_budget_isOk (prior : Option PriorChatQuery) :
    ∃ w, priorGetAttr prior "budget_range" = Except.ok w := by
  cases prior with
  | none => exact ⟨none, rfl⟩
  | some r => exact ⟨r.budget_range, rfl⟩

theorem pyCondField_isOk (v : Option String) (p : Except String (Option String))
    (hp : ∃ w, p = Except.ok w) :
    ∃ w, pyCondField (Except.ok v) p = Except.ok w := by
  obtain ⟨w, rfl⟩ := hp
  by_cases h : pyTruthyStr v
  · exact ⟨v, by simp [pyCondField, h]⟩
  · exact ⟨w, by simp [pyCondField, h]⟩

/-! ## Sample data used by witnesses and counterexamples -/

def mHi : Msg := Msg.dict "human" "i want a tshirt" none

def mYo : Msg := Msg.dict "ai" "Great! Let me find recommendations." none

def sampleRow : AgentStateRow Unit :=
  { thread_id := "t1"
    user_id := "u1"
    request_id := none
    messages := []
    user_profile := none
    search_results := none
    selected_item := none
    chat_query_json := none
    styled_products := none
    ranked_products := none
    merged_images := none
    current_agent := none
    user_intent := none
    next_step := none }

def emptyIncoming : IncomingState Unit :=
  { messages := none
    user_profile := none
    search_results := none
    selected_item := none
    chat_query_json := none
    styled_products := none
    ranked_products := none
    merged_images := none
    current_agent := none
    user_intent := none
    next_step := none }

def sampleIncoming : IncomingState Unit :=
  { emptyIncoming with messages := some [mHi, mYo] }

/-! ## Claim C1 -/

/-- C1: upserting the same non-null messages list twice in succession
leaves the stored messages list identical to the result of the first call:
an incoming message whose signature (normalized role, trimmed content)
already appears in the stored list is never appended again. -/
theorem upsert_messages_idempotent {α : Type} (row : AgentStateRow α)
    (uid : String) (rid : Option String) (st : IncomingState α)
    (ms : List Msg) (h : st.messages = some ms) :
    (updateExistingState (updateExistingState row uid rid st) uid rid st).messages
      = (updateExistingState row uid rid st).messages := by
  simp [updateExistingState, h, mergeMessages_idem]

/-- Witness for C1: a concrete double upsert of two messages into an empty
row stores exactly 2 messages, not 4. -/
theorem upsert_messages_idempotent_witness :
    sampleIncoming.messages = some [mHi, mYo] ∧
    (updateExistingState (updateExistingState sampleRow "u1" none sampleIncoming)
        "u1" none sampleIncoming).messages
      = (updateExistingState sampleRow "u1" none sampleIncoming).messages ∧
    (updateExistingState sampleRow "u1" none sampleIncoming).messages.length = 2 :=
  ⟨rfl,
   upsert_messages_idempotent sampleRow "u1" none sampleIncoming [mHi, mYo] rfl,
   by decide⟩

/-! ## Claim C2 -/

/-- C2: the message merge of the upsert only appends: the previously
stored message list is an unchanged prefix of the merged list, so the
stored length never decreases across upserts for the same thread. -/
theorem upsert_messages_append_only {α : Type} (row : AgentStateRow α)
    (uid : String) (rid : Option String) (st : IncomingState α) :
    (updateExistingState row uid rid st).messages.take row.messages.length
        = row.messages ∧
    row.messages.length ≤ (updateExistingState row uid rid st).messages.length := by
  cases hm : st.messages with
  | none =>
    constructor
    · simp [updateExistingState, hm]
    · simp [updateExistingState, hm]
  | some ms =>
    obtain ⟨t, ht⟩ := mergeMessages_eq_append row.messages ms
    constructor
    · simp [updateExistingState, hm, ht, List.take_left]
    · simp [updateExistingState, hm, ht]

/-! ## Claim C3 -/

/-- Counterexample for C3: the upsert assigns `current_agent`,
`user_intent`, `next_step` and `request_id` unconditionally
(agent_state_dao.py lines 100-104), so a stored value IS nulled out when
the incoming state omits the field: here a stored
`user_intent = "recommendation"` and `request_id = "req_1"` are erased by
an incoming state with both fields null. -/
theorem upsert_null_fields_counterexample :
    (updateExistingState
        { sampleRow with
            user_intent := some "recommendation"
            request_id := some "req_1" }
        "u1" none emptyIncoming).user_intent = none ∧
    (updateExistingState
        { sampleRow with
            user_intent := some "recommendation"
            request_id := some "req_1" }
        "u1" none emptyIncoming).request_id = none ∧
    ({ sampleRow with
        user_intent := some "recommendation"
        request_id := some "req_1" } : AgentStateRow Unit).user_intent
      = some "recommendation" := by
  refine ⟨?_, ?_, rfl⟩ <;> rfl

/-- C3 (amended): every JSON-payload column (`messages`, `user_profile`,
`search_results`, `selected_item`, `chat_query_json`, `styled_products`,
`ranked_products`, `merged_images`) that is absent or null in the incoming
state keeps its stored value; the scalar columns `user_id`, `request_id`,
`current_agent`, `user_intent`, `next_step` are overwritten
unconditionally (even with null).  The claim's field-by-field
extracted-query example holds nowhere in the program: at the DAO a
non-null incoming `chat_query_json` replaces the stored record wholesale
(last conjunct), and the truthiness merge inside `context_agent` is
unreachable, because that function raises AttributeError at
context.py line 107 (undeclared `product_type`) before any merge or
save. -/
theorem upsert_null_fields_amended {α : Type} (row : AgentStateRow α)
    (uid : String) (rid : Option String) (st : IncomingState α) :
    ((st.messages = none →
        (updateExistingState row uid rid st).messages = row.messages) ∧
     (st.user_profile = none →
        (updateExistingState row uid rid st).user_profile = row.user_profile) ∧
     (st.search_results = none →
        (updateExistingState row uid rid st).search_results = row.search_results) ∧
     (st.selected_item = none →
        (updateExistingState row uid rid st).selected_item = row.selected_item) ∧
     (st.chat_query_json = none →
        (updateExistingState row uid rid st).chat_query_json = row.chat_query_json) ∧
     (st.styled_products = none →
        (updateExistingState row uid rid st).styled_products = row.styled_products) ∧
     (st.ranked_products = none →
        (updateExistingState row uid rid st).ranked_products = row.ranked_products) ∧
     (st.merged_images = none →
        (updateExistingState row uid rid st).merged_images = row.merged_images)) ∧
    ((updateExistingState row uid rid st).user_id = uid ∧
     (updateExistingState row uid rid st).request_id = rid ∧
     (updateExistingState row uid rid st).current_agent = st.current_agent ∧
     (updateExistingState row uid rid st).user_intent = st.user_intent ∧
     (updateExistingState row uid rid st).next_step = st.next_step) ∧
    (∀ v : α, st.chat_query_json = some v →
      (updateExistingState row uid rid st).chat_query_json = some v) := by
  refine ⟨⟨?_, ?_, ?_, ?_, ?_, ?_, ?_, ?_⟩, ⟨rfl, rfl, rfl, rfl, rfl⟩, ?_⟩
  · intro h; simp [updateExistingState, h]
  · intro h; simp [updateExistingState, h]
  · intro h; simp [updateExistingState, h]
  · intro h; simp [updateExistingState, h]
  · intro h; simp [updateExistingState, h]
  · intro h; simp [updateExistingState, h]
  · intro h; simp [updateExistingState, h]
  · intro h; simp [updateExistingState, h]
  · intro v h; simp [updateExistingState, h]

/-- Witness for C3 (amended): an all-null incoming agent state leaves the
JSON columns of the row untouched, and a non-null incoming extracted
query replaces the stored `chat_query_json` wholesale. -/
theorem upsert_null_fields_amended_witness :
    (updateExistingState sampleRow "u1" none emptyIncoming).user_profile
        = sampleRow.user_profile ∧
    (updateExistingState sampleRow "u1" none emptyIncoming).messages
        = sampleRow.messages ∧
    (updateExistingState sampleRow "u1" none
        { emptyIncoming with chat_query_json := some () }).chat_query_json
      = some () :=
  ⟨(upsert_null_fields_amended sampleRow "u1" none emptyIncoming).1.2.1 rfl,
   (upsert_null_fields_amended sampleRow "u1" none emptyIncoming).1.1 rfl,
   (upsert_null_fields_amended sampleRow "u1" none
      { emptyIncoming with chat_query_json := some () }).2.2 () rfl⟩

/-! ## Claim C4 -/

/-- C4: the claimed routing never happens: for every extraction result
(whatever its required `query` field contains) and every stored record,
`context_agent` raises AttributeError at context.py line 107 — the
fourth constructor argument reads `extracted_data.product_type`, a field
declared neither on `ChatQueryExtraction` nor on `ChatQuery` — before
the merged record is built or saved, so the routing of lines 144-170 is
unreachable and the context stage never returns a transition, neither to
research nor to clarification. -/
theorem context_agent_product_type_bug (ext : ChatQueryExtraction)
    (prior : Option PriorChatQuery) :
    buildNewChatQuery ext prior = Except.error "AttributeError: product_type" ∧
    context_agent_decision ext prior
      = Except.error "AttributeError: product_type" := by
  have e1 : extractionGetAttr ext "destination" = Except.ok ext.destination := rfl
  have e2 : extractionGetAttr ext "occasion" = Except.ok ext.occasion := rfl
  have e3 : extractionGetAttr ext "budget_range" = Except.ok ext.budget_range := rfl
  have e4 : extractionGetAttr ext "product_type"
      = Except.error "AttributeError: product_type" := rfl
  obtain ⟨w1, h1⟩ := pyCondField_isOk ext.destination
    (priorGetAttr prior "destination") (priorGetAttr_dest_isOk prior)
  obtain ⟨w2, h2⟩ := pyCondField_isOk ext.occasion
    (priorGetAttr prior "occasion") (priorGetAttr_occ_isOk prior)
  obtain ⟨w3, h3⟩ := pyCondField_isOk ext.budget_range
    (priorGetAttr prior "budget_range") (priorGetAttr_budget_isOk prior)
  have hb : buildNewChatQuery ext prior
      = Except.error "AttributeError: product_type" := by
    rw [buildNewChatQuery, e1, h1, e2, h2, e3, h3, e4]
    rfl
  exact ⟨hb, by rw [context_agent_decision, hb]⟩

/-! ## Cosine similarity

`compute_cosine_similarity` (src/app/utils/similarity.py lines 8-26).
Vectors are numpy arrays of machine floats, modelled as lists of exact
reals; `np.dot` is the elementwise product-sum and `np.linalg.norm` the
square root of the sum of squares. -/

def dotList (a b : List ℝ) : ℝ :=
  (List.zipWith (fun x y => x * y) a b).sum

def normSqList (a : List ℝ) : ℝ :=
  (a.map fun x => x * x).sum

noncomputable def normList (a : List ℝ) : ℝ :=
  Real.sqrt (normSqList a)

noncomputable def compute_cosine_similarity (vec_a vec_b : List ℝ) : ℝ :=
  if normList vec_a = 0 ∨ normList vec_b = 0 then 0
  else dotList vec_a vec_b / (normList vec_a * normList vec_b)

theorem normSqList_nonneg (a : List ℝ) : 0 ≤ normSqList a := by
  induction a with
  | nil => simp [normSqList]
  | cons x xs ih =>
    simp only [normSqList, List.map_cons, List.sum_cons]
    have := mul_self_nonneg x
    simp only [normSqList] at ih
    linarith

theorem normList_nonneg (a : List ℝ) : 0 ≤ normList a :=
  Real.sqrt_nonneg _

/-- Cauchy-Schwarz for the list dot product. -/
theorem dotList_sq_le (a : List ℝ) :
    ∀ b : List ℝ, dotList a b ^ 2 ≤ normSqList a * normSqList b := by
  induction a with
  | nil =>
    intro b
    simp [dotList, normSqList]
  | cons x xs ih =>
    intro b
    cases b with
    | nil =>
      have := normSqList_nonneg (x :: xs)
      simp [dotList, normSqList]
    | cons y ys =>
      have hd := ih ys
      have hA := normSqList_nonneg xs
      have hB := normSqList_nonneg ys
      simp only [dotList, normSqList, List.zipWith_cons_cons, List.map_cons,
        List.sum_cons] at hd ⊢
      set d := (List.zipWith (fun x y => x * y) xs ys).sum with hdDef
      set A := (xs.map fun x => x * x).sum with hADef
      set B := (ys.map fun x => x * x).sum with hBDef
      have hS0 : 0 ≤ x * x * B + A * (y * y) := by
        have h1 : 0 ≤ x * x * B := mul_nonneg (mul_self_nonneg x) hB
        have h2 : 0 ≤ A * (y * y) := mul_nonneg hA (mul_self_nonneg y)
        linarith
      have hsq : (2 * (x * y) * d) ^ 2 ≤ (x * x * B + A * (y * y)) ^ 2 := by
        nlinarith [sq_nonneg (x * x * B - A * (y * y)),
          mul_nonneg (sq_nonneg (x * y)) (sub_nonneg.2 hd)]
      have habs : 2 * (x * y) * d ≤ x * x * B + A * (y * y) := by
        have h1 : 2 * (x * y) * d ≤ |2 * (x * y) * d| := le_abs_self _
        have h2 : |2 * (x * y) * d| = Real.sqrt ((2 * (x * y) * d) ^ 2) :=
          (Real.sqrt_sq_eq_abs _).symm
        have h3 : Real.sqrt ((2 * (x * y) * d) ^ 2)
            ≤ Real.sqrt ((x * x * B + A * (y * y)) ^ 2) :=
          Real.sqrt_le_sqrt hsq
        have h4 : Real.sqrt ((x * x * B + A * (y * y)) ^ 2)
            = x * x * B + A * (y * y) := Real.sqrt_sq hS0
        linarith
      nlinarith [hd, habs]

/-- The dot product is bounded by the product of the norms. -/
theorem abs_dotList_le (a b : List ℝ) :
    |dotList a b| ≤ normList a * normList b := by
  have h1 : |dotList a b| = Real.sqrt (dotList a b ^ 2) :=
    (Real.sqrt_sq_eq_abs _).symm
  have h2 : Real.sqrt (dotList a b ^ 2) ≤ Real.sqrt (normSqList a * normSqList b) :=
    Real.sqrt_le_sqrt (dotList_sq_le a b)
  have h3 : Real.sqrt (normSqList a * normSqList b) = normList a * normList b := by
    rw [normList, normList, Real.sqrt_mul (normSqList_nonneg a)]
  linarith

/-! ## Claim C7 -/

/-- C7: for equal-length vectors the cosine similarity lies in [-1, 1];
whenever either vector has zero magnitude the result is exactly 0 (the
guard at similarity.py lines 23-24), never NaN and never an exception
(the function is total). -/
theorem cosine_bounds (a b : List ℝ) (hlen : a.length = b.length) :
    (-1 ≤ compute_cosine_similarity a b ∧ compute_cosine_similarity a b ≤ 1) ∧
    ((normList a = 0 ∨ normList b = 0) → compute_cosine_similarity a b = 0) := by
  constructor
  · by_cases h : normList a = 0 ∨ normList b = 0
    · rw [compute_cosine_similarity, if_pos h]
      norm_num
    · rw [compute_cosine_similarity, if_neg h]
      push_neg at h
      have ha : 0 < normList a := lt_of_le_of_ne (normList_nonneg a) (Ne.symm h.1)
      have hb : 0 < normList b := lt_of_le_of_ne (normList_nonneg b) (Ne.symm h.2)
      have hab : 0 < normList a * normList b := mul_pos ha hb
      have habs : |dotList a b / (normList a * normList b)| ≤ 1 := by
        rw [abs_div, abs_of_pos hab]
        rw [div_le_one hab]
        exact abs_dotList_le a b
      exact abs_le.1 habs
  · intro h
    rw [compute_cosine_similarity, if_pos h]

/-- Witness for C7 at the zero vector [0,0] against [3,4]. -/
theorem cosine_bounds_witness :
    ([0, 0] : List ℝ).length = ([3, 4] : List ℝ).length ∧
    ((-1 ≤ compute_cosine_similarity [0, 0] [3, 4] ∧
      compute_cosine_similarity [0, 0] [3, 4] ≤ 1) ∧
     ((normList [0, 0] = 0 ∨ normList [3, 4] = 0) →
      compute_cosine_similarity [0, 0] [3, 4] = 0)) ∧
    compute_cosine_similarity [0, 0] [3, 4] = 0 := by
  have hz : normList [(0 : ℝ), 0] = 0 := by
    have : normSqList [(0 : ℝ), 0] = 0 := by norm_num [normSqList]
    rw [normList, this, Real.sqrt_zero]
  exact ⟨rfl, cosine_bounds [0, 0] [3, 4] rfl,
    (cosine_bounds [0, 0] [3, 4] rfl).2 (Or.inl hz)⟩

/-! ## Ranking engine

`rank_merged_images` (src/app/agents/ranking.py lines 18-94).  The five
facet weights are the module constants of lines 37-41; each candidate gets
the weighted sum of cosine similarities of lines 70-86; the pairs
`(idx, final_score)` are then sorted by score descending with CPython's
stable `list.sort(key=..., reverse=True)` (line 91), modelled by a stable
insertion sort that keeps the earlier-indexed element first on ties. -/

structure UserEmbedding where
  style_embedding : List ℝ
  brand_embedding : List ℝ
  color_embedding : List ℝ
  intent_embedding : List ℝ
  face_embedding : List ℝ

noncomputable def W_STYLE : ℝ := 0.40
noncomputable def W_BRAND : ℝ := 0.20
noncomputable def W_COLOR : ℝ := 0.20
noncomputable def W_INTENT : ℝ := 0.10
noncomputable def W_BEAUTY : ℝ := 0.10

/-- The combined score of one candidate embedding
(ranking.py lines 70-86). -/
noncomputable def final_score (ue : UserEmbedding) (beauty img : List ℝ) : ℝ :=
  W_STYLE * compute_cosine_similarity ue.style_embedding img
    + W_BRAND * compute_cosine_similarity ue.brand_embedding img
    + W_COLOR * compute_cosine_similarity ue.color_embedding img
    + W_INTENT * compute_cosine_similarity ue.intent_embedding img
    + W_BEAUTY * compute_cosine_similarity beauty img

/-- The `(idx, final_score)` pairs built by the `enumerate` loop
(ranking.py lines 43-88), starting at index `i`. -/
noncomputable def buildScores (ue : UserEmbedding) (beauty : List ℝ) :
    List (List ℝ) → ℕ → List (ℕ × ℝ)
  | [], _ => []
  | e :: rest, i => (i, final_score ue beauty e) :: buildScores ue beauty rest (i + 1)

/-- Stable descending insertion: `x` goes before the first element whose
score does not exceed `x`'s, so that on equal scores the element inserted
later (which comes earlier in the input) ends up first. -/
noncomputable def orderedInsertDesc (x : ℕ × ℝ) : List (ℕ × ℝ) → List (ℕ × ℝ)
  | [] => [x]
  | y :: ys => if y.2 ≤ x.2 then x :: y :: ys else y :: orderedInsertDesc x ys

/-- Stable sort by score descending, modelling
`scores.sort(key=lambda x: x[1], reverse=True)` (ranking.py line 91):
CPython's sort is stable, so equal scores keep their input order. -/
noncomputable def sortScoresDesc : List (ℕ × ℝ) → List (ℕ × ℝ)
  | [] => []
  | x :: xs => orderedInsertDesc x (sortScoresDesc xs)

/-- `rank_merged_images` (ranking.py lines 18-94): the permutation of input
indices ordered by combined score descending. -/
noncomputable def rank_merged_images (user_embedding : UserEmbedding)
    (merged_image_embeddings : List (List ℝ))
    (beauty_standard_embedding : List ℝ) : List ℕ :=
  (sortScoresDesc
    (buildScores user_embedding beauty_standard_embedding
      merged_image_embeddings 0)).map Prod.fst

/-! ### Sorting lemmas -/

theorem orderedInsertDesc_perm (x : ℕ × ℝ) (l : List (ℕ × ℝ)) :
    (orderedInsertDesc x l).Perm (x :: l) := by
  induction l with
  | nil => simp [orderedInsertDesc]
  | cons y ys ih =>
    by_cases h : y.2 ≤ x.2
    · simp [orderedInsertDesc, h]
    · rw [orderedInsertDesc, if_neg h]
      exact (ih.cons y).trans (List.Perm.swap x y ys)

theorem sortScoresDesc_perm (l : List (ℕ × ℝ)) : (sortScoresDesc l).Perm l := by
  induction l with
  | nil => simp [sortScoresDesc]
  | cons x xs ih =>
    exact (orderedInsertDesc_perm x (sortScoresDesc xs)).trans (ih.cons x)

theorem mem_orderedInsertDesc {z x : ℕ × ℝ} {l : List (ℕ × ℝ)} :
    z ∈ orderedInsertDesc x l ↔ z = x ∨ z ∈ l := by
  rw [(orderedInsertDesc_perm x l).mem_iff, List.mem_cons]

theorem orderedInsertDesc_sorted (x : ℕ × ℝ) (l : List (ℕ × ℝ))
    (hl : l.Pairwise fun p q => q.2 ≤ p.2) :
    (orderedInsertDesc x l).Pairwise fun p q => q.2 ≤ p.2 := by
  induction l with
  | nil => simp [orderedInsertDesc]
  | cons y ys ih =>
    rcases List.pairwise_cons.1 hl with ⟨hy, hys⟩
    by_cases h : y.2 ≤ x.2
    · rw [orderedInsertDesc, if_pos h]
      refine List.Pairwise.cons ?_ hl
      intro z hz
      rcases List.mem_cons.1 hz with hEq | hMem
      · exact hEq ▸ h
      · exact le_trans (hy z hMem) h
    · rw [orderedInsertDesc, if_neg h]
      refine List.Pairwise.cons ?_ (ih hys)
      intro z hz
      rcases mem_orderedInsertDesc.1 hz with hEq | hMem
      · exact hEq ▸ le_of_not_le h
      · exact hy z hMem

theorem sortScoresDesc_sorted (l : List (ℕ × ℝ)) :
    (sortScoresDesc l).Pairwise fun p q => q.2 ≤ p.2 := by
  induction l with
  | nil => simp [sortScoresDesc]
  | cons x xs ih => exact orderedInsertDesc_sorted x (sortScoresDesc xs) ih

theorem orderedInsertDesc_stable (x : ℕ × ℝ) (l : List (ℕ × ℝ))
    (hidx : ∀ y ∈ l, x.1 < y.1)
    (hl : l.Pairwise fun p q => p.2 = q.2 → p.1 < q.1) :
    (orderedInsertDesc x l).Pairwise fun p q => p.2 = q.2 → p.1 < q.1 := by
  induction l with
  | nil => simp [orderedInsertDesc]
  | cons y ys ih =>
    rcases List.pairwise_cons.1 hl with ⟨hy, hys⟩
    by_cases h : y.2 ≤ x.2
    · rw [orderedInsertDesc, if_pos h]
      refine List.Pairwise.cons ?_ hl
      intro z hz _
      exact hidx z hz
    · rw [orderedInsertDesc, if_neg h]
      refine List.Pairwise.cons ?_
        (ih (fun z hz => hidx z (List.mem_cons_of_mem y hz)) hys)
      intro z hz
      rcases mem_orderedInsertDesc.1 hz with hEq | hMem
      · subst hEq
        intro hEq2
        exact absurd (hEq2 ▸ le_refl y.2) h
      · exact hy z hMem

theorem sortScoresDesc_stable (l : List (ℕ × ℝ))
    (hl : l.Pairwise fun p q => p.1 < q.1) :
    (sortScoresDesc l).Pairwise fun p q => p.2 = q.2 → p.1 < q.1 := by
  induction l with
  | nil => simp [sortScoresDesc]
  | cons x xs ih =>
    rcases List.pairwise_cons.1 hl with ⟨hx, hxs⟩
    refine orderedInsertDesc_stable x (sortScoresDesc xs) ?_ (ih hxs)
    intro y hy
    exact hx y ((sortScoresDesc_perm xs).subset hy)

/-! ### buildScores lemmas -/

theorem buildScores_map_fst (ue : UserEmbedding) (beauty : List ℝ) :
    ∀ (l : List (List ℝ)) (i : ℕ),
      (buildScores ue beauty l i).map Prod.fst = List.range' i l.length := by
  intro l
  induction l with
  | nil => intro i; simp [buildScores]
  | cons e rest ih =>
    intro i
    simp [buildScores, ih, List.range'_succ]

theorem buildScores_fst_le (ue : UserEmbedding) (beauty : List ℝ) :
    ∀ (l : List (List ℝ)) (i : ℕ) (p : ℕ × ℝ),
      p ∈ buildScores ue beauty l i → i ≤ p.1 := by
  intro l
  induction l with
  | nil => intro i p hp; simp [buildScores] at hp
  | cons e rest ih =>
    intro i p hp
    rcases List.mem_cons.1 hp with hEq | hMem
    · subst hEq; exact le_refl i
    · exact le_trans (Nat.le_succ i) (ih (i + 1) p hMem)

theorem buildScores_fst_lt (ue : UserEmbedding) (beauty : List ℝ) :
    ∀ (l : List (List ℝ)) (i : ℕ),
      (buildScores ue beauty l i).Pairwise fun p q => p.1 < q.1 := by
  intro l
  induction l with
  | nil => intro i; simp [buildScores]
  | cons e rest ih =>
    intro i
    refine List.Pairwise.cons ?_ (ih (i + 1))
    intro q hq
    exact Nat.lt_of_succ_le (buildScores_fst_le ue beauty rest (i + 1) q hq)

theorem buildScores_snd (ue : UserEmbedding) (beauty : List ℝ) :
    ∀ (l : List (List ℝ)) (i : ℕ) (p : ℕ × ℝ),
      p ∈ buildScores ue beauty l i →
      ∃ k, p.1 = i + k ∧ k < l.length ∧ p.2 = final_score ue beauty (l.getD k []) := by
  intro l
  induction l with
  | nil => intro i p hp; simp [buildScores] at hp
  | cons e rest ih =>
    intro i p hp
    rcases List.mem_cons.1 hp with hEq | hMem
    · refine ⟨0, ?_, ?_, ?_⟩ <;> simp [hEq]
    · obtain ⟨k, hk1, hk2, hk3⟩ := ih (i + 1) p hMem
      refine ⟨k + 1, by omega, by simpa using hk2, ?_⟩
      simpa using hk3

theorem buildScores_snd_zero (ue : UserEmbedding) (beauty : List ℝ)
    (l : List (List ℝ)) (p : ℕ × ℝ) (hp : p ∈ buildScores ue beauty l 0) :
    p.2 = final_score ue beauty (l.getD p.1 []) := by
  obtain ⟨k, hk1, _, hk3⟩ := buildScores_snd ue beauty l 0 p hp
  have : p.1 = k := by omega
  rw [this, hk3]

/-! ## Claim C5 -/

/-- C5: `rank_merged_images` returns a permutation of the indices
0..n-1 in which combined scores are non-increasing, candidates with equal
combined scores keep their relative input order, and the function is
deterministic (a pure function of its inputs). -/
theorem rank_merged_images_spec (ue : UserEmbedding)
    (embs : List (List ℝ)) (beauty : List ℝ) :
    rank_merged_images ue embs beauty = rank_merged_images ue embs beauty ∧
    (rank_merged_images ue embs beauty).Perm (List.range embs.length) ∧
    (rank_merged_images ue embs beauty).Pairwise (fun i j =>
      final_score ue beauty (embs.getD j []) ≤ final_score ue beauty (embs.getD i [])) ∧
    (rank_merged_images ue embs beauty).Pairwise (fun i j =>
      final_score ue beauty (embs.getD i []) = final_score ue beauty (embs.getD j [])
        → i < j) := by
  refine ⟨rfl, ?_, ?_, ?_⟩
  · have h1 : (rank_merged_images ue embs beauty).Perm
        ((buildScores ue beauty embs 0).map Prod.fst) :=
      (sortScoresDesc_perm (buildScores ue beauty embs 0)).map Prod.fst
    rw [buildScores_map_fst, ← List.range_eq_range'] at h1
    exact h1
  · rw [rank_merged_images, List.pairwise_map]
    have hmem : ∀ p ∈ sortScoresDesc (buildScores ue beauty embs 0),
        p.2 = final_score ue beauty (embs.getD p.1 []) := fun p hp =>
      buildScores_snd_zero ue beauty embs p
        ((sortScoresDesc_perm (buildScores ue beauty embs 0)).subset hp)
    refine (sortScoresDesc_sorted (buildScores ue beauty embs 0)).imp_of_mem ?_
    intro p q hp hq h
    rw [← hmem p hp, ← hmem q hq]
    exact h
  · rw [rank_merged_images, List.pairwise_map]
    have hmem : ∀ p ∈ sortScoresDesc (buildScores ue beauty embs 0),
        p.2 = final_score ue beauty (embs.getD p.1 []) := fun p hp =>
      buildScores_snd_zero ue beauty embs p
        ((sortScoresDesc_perm (buildScores ue beauty embs 0)).subset hp)
    refine (sortScoresDesc_stable (buildScores ue beauty embs 0)
      (buildScores_fst_lt ue beauty embs 0)).imp_of_mem ?_
    intro p q hp hq h hEq
    exact h (by rw [hmem p hp, hmem q hq]; exact hEq)

/-! ## Claim C6 -/

/-- C6: the five ranking weights are 0.40/0.20/0.20/0.10/0.10, they sum to
exactly 1, and every candidate's combined score is the weighted sum of the
five cosine similarities with exactly these coefficients. -/
theorem ranking_weights_spec :
    (W_STYLE + W_BRAND + W_COLOR + W_INTENT + W_BEAUTY = 1) ∧
    (W_STYLE = 0.40 ∧ W_BRAND = 0.20 ∧ W_COLOR = 0.20 ∧
     W_INTENT = 0.10 ∧ W_BEAUTY = 0.10) ∧
    (∀ (ue : UserEmbedding) (beauty img : List ℝ),
      final_score ue beauty img =
        0.40 * compute_cosine_similarity ue.style_embedding img
        + 0.20 * compute_cosine_similarity ue.brand_embedding img
        + 0.20 * compute_cosine_similarity ue.color_embedding img
        + 0.10 * compute_cosine_similarity ue.intent_embedding img
        + 0.10 * compute_cosine_similarity beauty img) := by
  refine ⟨?_, ⟨rfl, rfl, rfl, rfl, rfl⟩, ?_⟩
  · norm_num [W_STYLE, W_BRAND, W_COLOR, W_INTENT, W_BEAUTY]
  · intro ue beauty img
    rfl

/-! ## Ranking agent

`ranking_agent` (src/app/agents/ranking.py lines 97-185), as a pure
function of the state fields it reads: the styled products, the user
profile's `user_embeddings` entry (absent or empty modelled as `none`,
matching the `if not user_embeddings_raw` falsiness check of line 126),
and the beauty-standard embedding. -/

structure StyledProduct where
  id : String
  image : String
  price : String
  link : String
  embedding : List ℝ

/-- The dict returned by `ranking_agent`. -/
structure RankingOutcome where
  message : String
  current_agent : String
  next_step : Option String
  ranked_products : List StyledProduct

/-- The f-string of ranking.py line 179. -/
def rankedMessage (n : ℕ) : String :=
  "I\x27ve ranked " ++ toString n ++
    " products based on your preferences and style. Here are the top recommendations."

noncomputable def ranking_agent (styled_products : List StyledProduct)
    (user_embeddings : Option UserEmbedding)
    (beauty_standard_embedding : List ℝ) : RankingOutcome :=
  if styled_products.isEmpty then
    { message := "No styled products to rank."
      current_agent := "ranking_agent"
      next_step := none
      ranked_products := [] }
  else
    match user_embeddings with
    | none =>
      { message := "User preference embeddings not found. Cannot rank products without user profile."
        current_agent := "ranking_agent"
        next_step := none
        ranked_products := styled_products }
    | some ue =>
      let ranked_indices := rank_merged_images ue
        (styled_products.map fun p => p.embedding) beauty_standard_embedding
      { message := rankedMessage ranked_indices.length
        current_agent := "ranking_agent"
        next_step := none
        ranked_products := ranked_indices.map fun idx =>
          styled_products.getD idx
            { id := "", image := "", price := "", link := "", embedding := [] } }

/-! ## Claim C8 -/

/-- C8: when styled candidates exist but the profile's preference
embeddings are absent or empty, the ranking stage raises no exception
(it is a total function) and returns the styled candidates unchanged, in
their original styling order, with an explanatory message
(ranking.py lines 126-136). -/
theorem ranking_agent_missing_profile (styled : List StyledProduct)
    (beauty : List ℝ) (h : styled ≠ []) :
    (ranking_agent styled none beauty).ranked_products = styled ∧
    (ranking_agent styled none beauty).message
      = "User preference embeddings not found. Cannot rank products without user profile." := by
  have h' : styled.isEmpty = false := by
    cases styled with
    | nil => exact absurd rfl h
    | cons p ps => rfl
  constructor <;> simp [ranking_agent, h']

def sampleStyled : List StyledProduct :=
  [{ id := "p1", image := "img1", price := "₹999", link := "l1", embedding := [1, 0] },
   { id := "p2", image := "img2", price := "₹1,499", link := "l2", embedding := [0, 1] }]

/-- Witness for C8: two concrete styled candidates with no profile come
back unchanged with the explanatory message. -/
theorem ranking_agent_missing_profile_witness :
    (ranking_agent sampleStyled none []).ranked_products = sampleStyled ∧
    (ranking_agent sampleStyled none []).message
      = "User preference embeddings not found. Cannot rank products without user profile." :=
  ranking_agent_missing_profile sampleStyled [] (List.cons_ne_nil _ _)

/-! ## Visual embedding

`EmbeddingService.get_image_embedding` (src/app/tools/embedding.py lines
33-76).  Two external collaborators, each an `Except` parameter:

* `load_model` — `self._load_model()` at line 43, which imports
  transformers and downloads the CLIP weights.  It runs OUTSIDE the
  try/except, so a failure there propagates out of the function
  (modelled by the whole function returning `.error`).
* `model_output` — the body of the try block (download, decode, CLIP
  processing, feature extraction, flattening): `.error` for any raised
  failure (caught at line 72 and degraded to `np.zeros(768)`), `.ok emb`
  for the flattened feature vector (768-dimensional for the reference
  CLIP model).

On the success path the vector is normalized only when its norm is
positive (lines 66-68). -/

noncomputable def get_image_embedding (load_model : Except String Unit)
    (model_output : Except String (List ℝ)) : Except String (List ℝ) :=
  match load_model with
  | .error e => .error e
  | .ok _ =>
    match model_output with
    | .error _ => .ok (List.replicate 768 0)
    | .ok embedding =>
      .ok (if 0 < normList embedding then
            embedding.map (fun x => x / normList embedding)
          else embedding)

theorem normSqList_map_div (l : List ℝ) (n : ℝ) :
    normSqList (l.map fun x => x / n) = normSqList l / n ^ 2 := by
  induction l with
  | nil => simp [normSqList]
  | cons x xs ih =>
    simp only [List.map_cons, normSqList, List.sum_cons] at ih ⊢
    rw [ih]
    ring

/-! ## Claim C9 -/

/-- Counterexample for C9, refuting the claim twice over.  (1) The
function CAN raise: `self._load_model()` (embedding.py line 43) runs
outside the try/except, so an import or weight-download failure
propagates out of `get_image_embedding` instead of yielding the zero
vector.  (2) On the success path an all-zero flattened model output is
returned unnormalized: its norm is 0, not 1 as the claim asserts for
every success. -/
theorem get_image_embedding_counterexample :
    get_image_embedding (Except.error "CLIP model load failed") (Except.ok [1])
      = Except.error "CLIP model load failed" ∧
    get_image_embedding (Except.ok ()) (Except.ok (List.replicate 768 (0 : ℝ)))
      = Except.ok (List.replicate 768 0) ∧
    normList (List.replicate 768 (0 : ℝ)) = 0 ∧
    (0 : ℝ) ≠ 1 := by
  have hz : normSqList (List.replicate 768 (0 : ℝ)) = 0 := by
    rw [normSqList, List.map_replicate, mul_zero, List.sum_replicate, smul_zero]
  have hn : normList (List.replicate 768 (0 : ℝ)) = 0 := by
    rw [normList, hz, Real.sqrt_zero]
  refine ⟨rfl, ?_, hn, by norm_num⟩
  rw [get_image_embedding, hn, if_neg (lt_irrefl (0 : ℝ))]

/-- C9 (amended): a model-load failure (outside the try block)
propagates as an exception; every failure inside the try block —
download error, decode error, model error, unsupported input — degrades
to the zero vector of dimensionality 768; on success the result keeps
the model output's dimensionality and is scaled to unit L2 norm whenever
that output's norm is positive, while a zero-norm output is returned
unchanged (the zero vector), not normalized. -/
theorem get_image_embedding_amended :
    (∀ (e : String) (out : Except String (List ℝ)),
      get_image_embedding (Except.error e) out = Except.error e) ∧
    (∀ msg : String,
      get_image_embedding (Except.ok ()) (Except.error msg)
        = Except.ok (List.replicate 768 0) ∧
      (List.replicate 768 (0 : ℝ)).length = 768) ∧
    (∀ emb : List ℝ, 0 < normList emb →
      get_image_embedding (Except.ok ()) (Except.ok emb)
        = Except.ok (emb.map fun x => x / normList emb) ∧
      normList (emb.map fun x => x / normList emb) = 1 ∧
      (emb.map fun x => x / normList emb).length = emb.length) ∧
    (∀ emb : List ℝ, normList emb = 0 →
      get_image_embedding (Except.ok ()) (Except.ok emb) = Except.ok emb) := by
  refine ⟨?_, ?_, ?_, ?_⟩
  · intro e out
    rfl
  · intro msg
    exact ⟨rfl, List.length_replicate 768 0⟩
  · intro emb hpos
    have hA : 0 < normSqList emb := Real.sqrt_pos.1 hpos
    refine ⟨by rw [get_image_embedding]; simp [hpos], ?_, List.length_map _ _⟩
    rw [normList, normSqList_map_div, normList,
      Real.sq_sqrt (le_of_lt hA), div_self (ne_of_gt hA), Real.sqrt_one]
  · intro emb hzero
    rw [get_image_embedding, hzero]
    simp

/-- Witness for C9 (amended): a load failure propagates; a failed
download yields the 768-dim zero vector; the model output [3, 4] is
normalized to unit norm and keeps length 2; the zero output [0] is
returned unchanged. -/
theorem get_image_embedding_amended_witness :
    get_image_embedding (Except.error "transformers import failed") (Except.ok [1])
      = Except.error "transformers import failed" ∧
    get_image_embedding (Except.ok ()) (Except.error "download failed")
      = Except.ok (List.replicate 768 0) ∧
    normList ([(3 : ℝ), 4].map fun x => x / normList [(3 : ℝ), 4]) = 1 ∧
    get_image_embedding (Except.ok ()) (Except.ok [0]) = Except.ok [0] := by
  have h25 : normSqList [(3 : ℝ), 4] = 25 := by norm_num [normSqList]
  have hpos : 0 < normList [(3 : ℝ), 4] := by
    rw [normList, h25]
    exact Real.sqrt_pos.2 (by norm_num)
  have hz : normList [(0 : ℝ)] = 0 := by
    have : normSqList [(0 : ℝ)] = 0 := by norm_num [normSqList]
    rw [normList, this, Real.sqrt_zero]
  exact ⟨get_image_embedding_amended.1 "transformers import failed" (Except.ok [1]),
    (get_image_embedding_amended.2.1 "download failed").1,
    (get_image_embedding_amended.2.2.1 [3, 4] hpos).2.1,
    get_image_embedding_amended.2.2.2 [0] hz⟩

/-! ## Client-side price filtering

`_extract_price` and `filter_by_price` (src/app/tools/filtering.py lines
13-84).  Python's builtin `float(...)` string parser is an external
collaborator, modelled as a `parse_float : String → Option ℚ` parameter
(`none` = raises ValueError); machine floats are modelled as exact
rationals.  `str.replace(old, '')` on a nonempty `old` removes the
non-overlapping occurrences left to right. -/

def removeOccsAux (pat : List Char) : List Char → ℕ → List Char
  | [], _ => []
  | _ :: rest, skip + 1 => removeOccsAux pat rest skip
  | c :: rest, 0 =>
    if pat ≠ [] ∧ pat.isPrefixOf (c :: rest) then
      removeOccsAux pat rest (pat.length - 1)
    else
      c :: removeOccsAux pat rest 0

/-- Python's `s.replace(pat, '')` for a nonempty `pat`. -/
def pyRemoveAll (s pat : String) : String :=
  String.mk (removeOccsAux pat.toList s.toList 0)

/-- The default currency symbols of `_extract_price`
(filtering.py line 28). -/
def currency_symbols : List String := ["₹", "$", "€", "£", "¥", "Rs", "rs"]

/-- The cleaning pipeline of `_extract_price` (filtering.py lines 30-38):
drop currency symbols, thousands separators and spaces, then strip. -/
def cleanPrice (price_str : String) : String :=
  pyStrip (pyRemoveAll (pyRemoveAll
    (currency_symbols.foldl (fun acc sym => pyRemoveAll acc sym) price_str)
    ",") " ")

/-- `_extract_price` (filtering.py lines 13-42): parse the cleaned string,
returning 0.0 when parsing fails. -/
def extract_price (parse_float : String → Option ℚ) (price_str : String) : ℚ :=
  match parse_float (cleanPrice price_str) with
  | some v => v
  | none => 0

structure Product where
  image : String
  price : String
  link : String
  rating : Option ℚ
  title : String
  source : String
  reviews : Option ℤ
  deriving DecidableEq

def belowMin : Option ℚ → ℚ → Bool
  | none, _ => false
  | some m, x => decide (x < m)

def aboveMax : Option ℚ → ℚ → Bool
  | none, _ => false
  | some m, x => decide (m < x)

/-- The filtering loop of `filter_by_price` (filtering.py lines 67-82).
Its `except` branch (include the product when price parsing raises) is
unreachable, because `_extract_price` catches the parse failure itself
and returns 0.0; the loop is therefore modelled without it. -/
def filterByPriceLoop (parse_float : String → Option ℚ)
    (min_price max_price : Option ℚ) : List Product → List Product × ℕ
  | [] => ([], 0)
  | p :: rest =>
    if belowMin min_price (extract_price parse_float p.price) then
      ((filterByPriceLoop parse_float min_price max_price rest).1,
       (filterByPriceLoop parse_float min_price max_price rest).2 + 1)
    else if aboveMax max_price (extract_price parse_float p.price) then
      ((filterByPriceLoop parse_float min_price max_price rest).1,
       (filterByPriceLoop parse_float min_price max_price rest).2 + 1)
    else
      (p :: (filterByPriceLoop parse_float min_price max_price rest).1,
       (filterByPriceLoop parse_float min_price max_price rest).2)

/-- `filter_by_price` (filtering.py lines 45-84). -/
def filter_by_price (parse_float : String → Option ℚ) (products : List Product)
    (min_price max_price : Option ℚ) : List Product × ℕ :=
  if min_price = none ∧ max_price = none then (products, 0)
  else filterByPriceLoop parse_float min_price max_price products

theorem filterByPriceLoop_subset (parse_float : String → Option ℚ)
    (minP maxP : Option ℚ) :
    ∀ (l : List Product) (x : Product),
      x ∈ (filterByPriceLoop parse_float minP maxP l).1 → x ∈ l := by
  intro l
  induction l with
  | nil => intro x hx; simp [filterByPriceLoop] at hx
  | cons q rest ih =>
    intro x hx
    by_cases h1 : belowMin minP (extract_price parse_float q.price)
    · rw [filterByPriceLoop, if_pos h1] at hx
      exact List.mem_cons_of_mem q (ih x hx)
    · by_cases h2 : aboveMax maxP (extract_price parse_float q.price)
      · rw [filterByPriceLoop, if_neg h1, if_pos h2] at hx
        exact List.mem_cons_of_mem q (ih x hx)
      · rw [filterByPriceLoop, if_neg h1, if_neg h2] at hx
        rcases List.mem_cons.1 hx with hEq | hMem
        · exact hEq ▸ List.mem_cons_self q rest
        · exact List.mem_cons_of_mem q (ih x hMem)

/-! ## Claim C10 -/

def alwaysFailParse : String → Option ℚ := fun _ => none

def unparseableProduct : Product :=
  { image := "img"
    price := "unknown"
    link := "lnk"
    rating := none
    title := ""
    source := ""
    reviews := none }

/-- Counterexample for C10: a product whose price fails to parse is NOT
always included under a max_price-only filter — with a negative
`max_price` it is excluded, because the failed parse is treated as price
0.0 and 0.0 exceeds the bound. -/
theorem filter_by_price_counterexample :
    alwaysFailParse (cleanPrice unparseableProduct.price) = none ∧
    filter_by_price alwaysFailParse [unparseableProduct] none (some (-1))
      = ([], 1) := by
  exact ⟨rfl, by decide⟩

/-- C10 (amended): a product whose price string fails to parse is treated
as having price 0.0: `_extract_price` returns 0.0 on parse failure (its
own exception handler, so `filter_by_price`'s include-on-parse-failure
branch is never taken), the product is excluded whenever a positive
`min_price` is given, and it is included under a max_price-only filter
whenever that `max_price` is nonnegative (a negative `max_price`
excludes it). -/
theorem filter_by_price_amended (parse_float : String → Option ℚ) :
    (∀ s : String, parse_float (cleanPrice s) = none →
      extract_price parse_float s = 0) ∧
    (∀ (products : List Product) (m : ℚ) (maxP : Option ℚ) (p : Product),
      0 < m → parse_float (cleanPrice p.price) = none →
      p ∉ (filter_by_price parse_float products (some m) maxP).1) ∧
    (∀ (products : List Product) (m : ℚ) (p : Product),
      0 ≤ m → p ∈ products → parse_float (cleanPrice p.price) = none →
      p ∈ (filter_by_price parse_float products none (some m)).1) := by
  have hext : ∀ s : String, parse_float (cleanPrice s) = none →
      extract_price parse_float s = 0 := by
    intro s h
    rw [extract_price, h]
  refine ⟨hext, ?_, ?_⟩
  · intro products m maxP p hm hp
    have h0 : extract_price parse_float p.price = 0 := hext p.price hp
    have hbelow : belowMin (some m) (extract_price parse_float p.price) = true := by
      rw [h0, belowMin]
      exact decide_eq_true hm
    rw [filter_by_price, if_neg (by simp)]
    induction products with
    | nil => simp [filterByPriceLoop]
    | cons q rest ih =>
      by_cases hq : q = p
      · subst hq
        rw [filterByPriceLoop, if_pos hbelow]
        exact ih
      · by_cases h1 : belowMin (some m) (extract_price parse_float q.price)
        · rw [filterByPriceLoop, if_pos h1]
          exact ih
        · by_cases h2 : aboveMax maxP (extract_price parse_float q.price)
          · rw [filterByPriceLoop, if_neg h1, if_pos h2]
            exact ih
          · rw [filterByPriceLoop, if_neg h1, if_neg h2]
            intro hmem
            rcases List.mem_cons.1 hmem with hEq | hMem
            · exact hq hEq.symm
            · exact ih hMem
  · intro products m p hm hpmem hp
    have h0 : extract_price parse_float p.price = 0 := hext p.price hp
    have hbelow : belowMin none (extract_price parse_float p.price) = false := rfl
    have habove : aboveMax (some m) (extract_price parse_float p.price) = false := by
      rw [h0, aboveMax]
      exact decide_eq_false (not_lt.2 hm)
    rw [filter_by_price, if_neg (by simp)]
    induction products with
    | nil => exact absurd hpmem (List.not_mem_nil p)
    | cons q rest ih =>
      rcases List.mem_cons.1 hpmem with hEq | hMem
      · subst hEq
        rw [filterByPriceLoop, if_neg (by rw [hbelow]; exact Bool.false_ne_true),
          if_neg (by rw [habove]; exact Bool.false_ne_true)]
        exact List.mem_cons_self p _
      · have hrest := ih hMem
        by_cases h1 : belowMin none (extract_price parse_float q.price)
        · rw [filterByPriceLoop, if_pos h1]
          exact hrest
        · by_cases h2 : aboveMax (some m) (extract_price parse_float q.price)
          · rw [filterByPriceLoop, if_neg h1, if_pos h2]
            exact hrest
          · rw [filterByPriceLoop, if_neg h1, if_neg h2]
            exact List.mem_cons_of_mem q hrest

/-- Witness for C10 (amended): the concrete unparseable product has
extracted price 0, is excluded by `min_price = 1`, and is included by
`max_price = 100`. -/
theorem filter_by_price_amended_witness :
    extract_price alwaysFailParse "unknown" = 0 ∧
    unparseableProduct ∉
      (filter_by_price alwaysFailParse [unparseableProduct] (some 1) none).1 ∧
    unparseableProduct ∈
      (filter_by_price alwaysFailParse [unparseableProduct] none (some 100)).1 :=
  ⟨(filter_by_price_amended alwaysFailParse).1 "unknown" rfl,
   (filter_by_price_amended alwaysFailParse).2.1 [unparseableProduct] 1 none
     unparseableProduct (by norm_num) rfl,
   (filter_by_price_amended alwaysFailParse).2.2 [unparseableProduct] 100
     unparseableProduct (by norm_num) (List.mem_singleton.2 rfl) rfl⟩

end AuraAI
